import Mathlib

/-!
Verification of the dual-number algebra library (Go package `dual`).

Scalar components (Go `float64`) are embedded as rational numbers, the
exact-arithmetic idealization; claims about IEEE special values (Inf, NaN)
are settled over a dedicated `EFloat` type that carries the special values
and the IEEE comparison semantics.  In-place mutation through pointer
receivers is modelled, where a claim is about aliasing, by an explicit
location-indexed store.
-/

namespace dual

/-- Tolerance constant from doc.go (`epsilon = 0.00000001`). -/
def eps : ℚ := 1 / 100000000

/-- Embeds `notEquals` from doc.go: true if a and b differ by more than eps. -/
def notEquals (a b : ℚ) : Bool :=
  decide (a - b > eps) || decide (b - a > eps)

/-- Embeds the `Dual` type from dual.go: an ordered pair of two scalars. -/
def Dual : Type := ℚ × ℚ

instance : DecidableEq Dual := inferInstanceAs (DecidableEq (ℚ × ℚ))

/-- Embeds `Dual.Equals` from dual.go: componentwise tolerance comparison. -/
def Dual.Equals (z y : Dual) : Bool :=
  !(notEquals z.1 y.1) && !(notEquals z.2 y.2)

/-- Embeds `New` from dual.go. -/
def New (a b : ℚ) : Dual := (a, b)

/-- Embeds `Dual.Scal` from dual.go: `z[i] = a * v`. -/
def Dual.Scal (y : Dual) (a : ℚ) : Dual := (a * y.1, a * y.2)

/-- Embeds `Dual.Neg` from dual.go. -/
def Dual.Neg (y : Dual) : Dual := Dual.Scal y (-1)

/-- Embeds `Dual.Conj` from dual.go. -/
def Dual.Conj (y : Dual) : Dual := (y.1, -y.2)

/-- Embeds `Dual.Add` from dual.go. -/
def Dual.Add (x y : Dual) : Dual := (x.1 + y.1, x.2 + y.2)

/-- Embeds `Dual.Sub` from dual.go. -/
def Dual.Sub (x y : Dual) : Dual := (x.1 - y.1, x.2 - y.2)

/-- Embeds `Dual.Mul` from dual.go: operands are copied into p and q first,
then the two components of the output are computed from the copies. -/
def Dual.Mul (x y : Dual) : Dual :=
  let p := x
  let q := y
  (p.1 * q.1, (p.1 * q.2) + (p.2 * q.1))

/-- Embeds `Dual.Quad` from dual.go: the first component of z times its
conjugate, computed through the full multiplication. -/
def Dual.Quad (z : Dual) : ℚ := (Dual.Mul z (Dual.Conj z)).1

/-- Embeds `Dual.IsZeroDiv` from dual.go. -/
def Dual.IsZeroDiv (z : Dual) : Bool := !(notEquals z.1 0)

/-- Embeds `Dual.Inv` from dual.go; the "panic on zero divisor" branch is
modelled as `none`. -/
def Dual.Inv (y : Dual) : Option Dual :=
  if Dual.IsZeroDiv y then none
  else some (Dual.Scal (Dual.Conj y) (1 / Dual.Quad y))

/-- Embeds `Dual.Quo` from dual.go; the "panic on zero divisor" branch is
modelled as `none`. -/
def Dual.Quo (x y : Dual) : Option Dual :=
  if Dual.IsZeroDiv y then none
  else some (Dual.Scal (Dual.Mul x (Dual.Conj y)) (1 / Dual.Quad y))

/-- Embeds the `Real` type from real.go: a dual real number. -/
def Real : Type := ℚ × ℚ

instance : DecidableEq Real := inferInstanceAs (DecidableEq (ℚ × ℚ))

/-- Embeds `Real.Equals` from real.go. -/
def Real.Equals (z y : Real) : Bool :=
  !(notEquals z.1 y.1) && !(notEquals z.2 y.2)

/-- Embeds `NewReal` from real.go. -/
def NewReal (a b : ℚ) : Real := (a, b)

/-- Embeds `Real.Scal` from real.go: `y.Real() * a`, `y.Dual() * a`. -/
def Real.Scal (y : Real) (a : ℚ) : Real := (y.1 * a, y.2 * a)

/-- Embeds `Real.Neg` from real.go. -/
def Real.Neg (y : Real) : Real := Real.Scal y (-1)

/-- Embeds `Real.Conj` from real.go: dual part is `y.Dual() * -1`. -/
def Real.Conj (y : Real) : Real := (y.1, y.2 * -1)

/-- Embeds `Real.Add` from real.go. -/
def Real.Add (x y : Real) : Real := (x.1 + y.1, x.2 + y.2)

/-- Embeds `Real.Sub` from real.go. -/
def Real.Sub (x y : Real) : Real := (x.1 - y.1, x.2 - y.2)

/-- Embeds `Real.Mul` from real.go: operands are copied into p and q first. -/
def Real.Mul (x y : Real) : Real :=
  let p := x
  let q := y
  (p.1 * q.1, (p.1 * q.2) + (p.2 * q.1))

/-- Embeds `Real.Quad` from real.go: the shortcut `z.Real() * z.Real()`. -/
def Real.Quad (z : Real) : ℚ := z.1 * z.1

/-- Embeds `Real.IsZeroDiv` from real.go. -/
def Real.IsZeroDiv (z : Real) : Bool := !(notEquals z.1 0)

/-- Embeds `Real.Inv` from real.go; panic modelled as `none`. -/
def Real.Inv (y : Real) : Option Real :=
  if Real.IsZeroDiv y then none
  else some (Real.Scal (Real.Conj y) (1 / Real.Quad y))

/-- Embeds `Real.Quo` from real.go; panic modelled as `none`. -/
def Real.Quo (x y : Real) : Option Real :=
  if Real.IsZeroDiv y then none
  else some (Real.Scal (Real.Mul x (Real.Conj y)) (1 / Real.Quad y))

/-- Modelled from the spec: the external base-ring type `qtr.Hamilton`
(a plain quaternion, four scalar components), absent from src.  The
structure constants are the ones the spec and the hamilton.go doc comment
enumerate: i*i = j*j = k*k = -1, i*j = k, j*k = i, k*i = j. -/
structure QtrHamilton where
  c0 : ℚ
  c1 : ℚ
  c2 : ℚ
  c3 : ℚ
  deriving DecidableEq

/-- Modelled from the spec: the zero quaternion `qtr.Hamilton{0, 0, 0, 0}`. -/
def QtrHamilton.zero : QtrHamilton := ⟨0, 0, 0, 0⟩

/-- Modelled from the spec: `qtr.Hamilton.Equals`, componentwise tolerance
comparison as every `Equals` of the library. -/
def QtrHamilton.Equals (z y : QtrHamilton) : Bool :=
  !(notEquals z.c0 y.c0) && !(notEquals z.c1 y.c1) &&
  !(notEquals z.c2 y.c2) && !(notEquals z.c3 y.c3)

/-- Modelled from the spec: `qtr.Hamilton.Scal`, scale each component. -/
def QtrHamilton.Scal (y : QtrHamilton) (a : ℚ) : QtrHamilton :=
  ⟨a * y.c0, a * y.c1, a * y.c2, a * y.c3⟩

/-- Modelled from the spec: `qtr.Hamilton.Neg` as scaling by -1. -/
def QtrHamilton.Neg (y : QtrHamilton) : QtrHamilton := QtrHamilton.Scal y (-1)

/-- Modelled from the spec: `qtr.Hamilton.Conj`, negating the imaginary
generators i, j, k. -/
def QtrHamilton.Conj (y : QtrHamilton) : QtrHamilton :=
  ⟨y.c0, -y.c1, -y.c2, -y.c3⟩

/-- Modelled from the spec: `qtr.Hamilton.Add`, componentwise. -/
def QtrHamilton.Add (x y : QtrHamilton) : QtrHamilton :=
  ⟨x.c0 + y.c0, x.c1 + y.c1, x.c2 + y.c2, x.c3 + y.c3⟩

/-- Modelled from the spec: `qtr.Hamilton.Mul`, the classical quaternion
bilinear table (matching the quaternion half of the table spelled out in
src/unnamed/part_001). -/
def QtrHamilton.Mul (x y : QtrHamilton) : QtrHamilton :=
  ⟨(x.c0 * y.c0) - (x.c1 * y.c1) - (x.c2 * y.c2) - (x.c3 * y.c3),
   (x.c0 * y.c1) + (x.c1 * y.c0) + (x.c2 * y.c3) - (x.c3 * y.c2),
   (x.c0 * y.c2) - (x.c1 * y.c3) + (x.c2 * y.c0) + (x.c3 * y.c1),
   (x.c0 * y.c3) + (x.c1 * y.c2) - (x.c2 * y.c1) + (x.c3 * y.c0)⟩

/-- Modelled from the spec: `qtr.Hamilton.Quad`, the quaternion quadrance
z times conj(z) restricted to its real core, i.e. the sum of the squares
of the four components. -/
def QtrHamilton.Quad (z : QtrHamilton) : ℚ :=
  (z.c0 * z.c0) + (z.c1 * z.c1) + (z.c2 * z.c2) + (z.c3 * z.c3)

/-- Embeds the `Hamilton` type from hamilton.go: a pair of quaternions. -/
def Hamilton : Type := QtrHamilton × QtrHamilton

instance : DecidableEq Hamilton :=
  inferInstanceAs (DecidableEq (QtrHamilton × QtrHamilton))

/-- Embeds `Hamilton.Equals` from hamilton.go. -/
def Hamilton.Equals (z y : Hamilton) : Bool :=
  QtrHamilton.Equals z.1 y.1 && QtrHamilton.Equals z.2 y.2

/-- Embeds `NewHamilton` from hamilton.go. -/
def NewHamilton (a b c d e f g h : ℚ) : Hamilton :=
  (⟨a, b, c, d⟩, ⟨e, f, g, h⟩)

/-- Embeds `Hamilton.Conj` from hamilton.go: quaternion conjugate of the
real half, plain negation of the dual half. -/
def Hamilton.Conj (y : Hamilton) : Hamilton :=
  (QtrHamilton.Conj y.1, QtrHamilton.Neg y.2)

/-- Embeds `Hamilton.DualConj` from src/unnamed/part_001: copy of the real
half, negation of the dual half. -/
def Hamilton.DualConj (y : Hamilton) : Hamilton :=
  (y.1, QtrHamilton.Neg y.2)

/-- Embeds `Hamilton.Add` from hamilton.go. -/
def Hamilton.Add (x y : Hamilton) : Hamilton :=
  (QtrHamilton.Add x.1 y.1, QtrHamilton.Add x.2 y.2)

/-- Embeds `Hamilton.Mul` from hamilton.go: operands copied into p and q,
then `z[0] = p[0]*q[0]` and `z[1] = q[1]*p[0] + p[1]*conj(q[0])`, where
the conjugation overwrites the local copy `q[0]` in place. -/
def Hamilton.Mul (x y : Hamilton) : Hamilton :=
  let p := x
  let q := y
  let z0 := QtrHamilton.Mul p.1 q.1
  let t := QtrHamilton.Mul q.2 p.1
  let qc := QtrHamilton.Conj q.1
  (z0, QtrHamilton.Add t (QtrHamilton.Mul p.2 qc))

/-- Embeds `Hamilton.Quad` from hamilton.go: the quaternion quadrance of
the real half, `z[0].Quad()`. -/
def Hamilton.Quad (z : Hamilton) : ℚ := QtrHamilton.Quad z.1

/-- Embeds `Hamilton.IsZeroDiv` from hamilton.go:
`!z[0].Equals(&qtr.Hamilton{0, 0, 0, 0})`. -/
def Hamilton.IsZeroDiv (z : Hamilton) : Bool :=
  !(QtrHamilton.Equals z.1 QtrHamilton.zero)

/-- Modelled from the spec: the external base-ring type `split.Complex`
(a split-complex number, two scalar components), absent from src. -/
def SplitComplex : Type := ℚ × ℚ

instance : DecidableEq SplitComplex := inferInstanceAs (DecidableEq (ℚ × ℚ))

/-- Modelled from the spec: `split.Complex.Equals`, componentwise tolerance
comparison. -/
def SplitComplex.Equals (z y : SplitComplex) : Bool :=
  !(notEquals z.1 y.1) && !(notEquals z.2 y.2)

/-- Modelled from the spec: the zero element `split.Complex{0, 0}`. -/
def SplitComplex.zero : SplitComplex := ((0 : ℚ), (0 : ℚ))

/-- Embeds the `Perplex` type from perplex.go: a pair of split-complex
numbers. -/
def Perplex : Type := SplitComplex × SplitComplex

instance : DecidableEq Perplex :=
  inferInstanceAs (DecidableEq (SplitComplex × SplitComplex))

/-- Embeds `Perplex.IsZeroDiv` from perplex.go:
`!z[0].Equals(&split.Complex{0, 0})`. -/
def Perplex.IsZeroDiv (z : Perplex) : Bool :=
  !(SplitComplex.Equals z.1 SplitComplex.zero)

/-- Embeds the `Super` type from super.go: four scalar components over the
basis 1, sigma, tau, sigma tau. -/
structure Super where
  s0 : ℚ
  s1 : ℚ
  s2 : ℚ
  s3 : ℚ
  deriving DecidableEq

/-- Embeds `Super.Add` from super.go. -/
def Super.Add (x y : Super) : Super :=
  ⟨x.s0 + y.s0, x.s1 + y.s1, x.s2 + y.s2, x.s3 + y.s3⟩

/-- Embeds `Super.Mul` from super.go: operands copied into p and q, then
the four output components are computed from the copies. -/
def Super.Mul (x y : Super) : Super :=
  let p := x
  let q := y
  ⟨p.s0 * q.s0,
   (p.s0 * q.s1) + (p.s1 * q.s0),
   (p.s0 * q.s2) + (p.s2 * q.s0),
   (p.s0 * q.s3) + (p.s1 * q.s2) - (p.s2 * q.s1) + (p.s3 * q.s0)⟩

/-- Modelled from the spec: `Super.Conj`, the ring conjugate of a Super
value, which ultra.go calls but which is absent from the super.go revision
under src.  Per the spec's conjugation rule the ring conjugate negates the
imaginary generators sigma, tau and sigma tau, agreeing with the
`Super.DualConj` present in super.go. -/
def Super.Conj (y : Super) : Super := ⟨y.s0, -y.s1, -y.s2, -y.s3⟩

/-- Embeds the `Ultra` type from ultra.go: a pair of Super values. -/
def Ultra : Type := Super × Super

instance : DecidableEq Ultra := inferInstanceAs (DecidableEq (Super × Super))

/-- Embeds `Ultra.Mul` from ultra.go: operands copied into p and q, then
real part `p.Real()*q.Real()` and dual part
`q.Dual()*p.Real() + p.Dual()*Conj(q.Real())`. -/
def Ultra.Mul (x y : Ultra) : Ultra :=
  let p := x
  let q := y
  let z0 := Super.Mul p.1 q.1
  let t := Super.Mul q.2 p.1
  let qc := Super.Conj q.1
  (z0, Super.Add t (Super.Mul p.2 qc))

/-- Model of a float64 carrying the IEEE special values: a finite value,
a positive or negative infinity, or a NaN. -/
inductive EFloat where
  | fin : ℚ → EFloat
  | pinf : EFloat
  | ninf : EFloat
  | nan : EFloat
  deriving DecidableEq

/-- IEEE subtraction on the float model: any NaN operand produces NaN,
infinities of the same sign cancel to NaN, otherwise the infinite operand
dominates. -/
def EFloat.sub : EFloat → EFloat → EFloat
  | .nan, _ => .nan
  | _, .nan => .nan
  | .fin a, .fin b => .fin (a - b)
  | .pinf, .pinf => .nan
  | .pinf, _ => .pinf
  | .ninf, .ninf => .nan
  | .ninf, _ => .ninf
  | .fin _, .pinf => .ninf
  | .fin _, .ninf => .pinf

/-- IEEE ordered greater-than against a finite constant: false whenever the
left operand is NaN. -/
def EFloat.gtQ : EFloat → ℚ → Bool
  | .fin a, c => decide (a > c)
  | .pinf, _ => true
  | .ninf, _ => false
  | .nan, _ => false

/-- IEEE infinity classifier, `math.IsInf(v, 0)`. -/
def EFloat.isInf : EFloat → Bool
  | .pinf => true
  | .ninf => true
  | _ => false

/-- IEEE NaN classifier, `math.IsNaN(v)`. -/
def EFloat.isNaN : EFloat → Bool
  | .nan => true
  | _ => false

/-- Embeds `notEquals` from doc.go over the float model with IEEE special
values: `((a - b) > epsilon) || ((b - a) > epsilon)`. -/
def notEqualsE (a b : EFloat) : Bool :=
  EFloat.gtQ (EFloat.sub a b) eps || EFloat.gtQ (EFloat.sub b a) eps

/-- Embeds the `Real` type from real.go over the float model with IEEE
special values. -/
def RealE : Type := EFloat × EFloat

instance : DecidableEq RealE := inferInstanceAs (DecidableEq (EFloat × EFloat))

/-- Embeds `Real.Equals` from real.go over the float model. -/
def RealE.Equals (z y : RealE) : Bool :=
  !(notEqualsE z.1 y.1) && !(notEqualsE z.2 y.2)

/-- Embeds `Real.IsInf` from real.go: true if either component is
infinite. -/
def RealE.IsInf (z : RealE) : Bool := EFloat.isInf z.1 || EFloat.isInf z.2

/-- Embeds `Real.IsNaN` from real.go: false if either component is
infinite, otherwise true if either component is NaN. -/
def RealE.IsNaN (z : RealE) : Bool :=
  if EFloat.isInf z.1 || EFloat.isInf z.2 then false
  else EFloat.isNaN z.1 || EFloat.isNaN z.2

/-- Embeds `RealNaN` from real.go: both components set to NaN. -/
def RealNaN : RealE := (.nan, .nan)

/-- Embeds the `Dual` type from dual.go over the float model with IEEE
special values. -/
def DualE : Type := EFloat × EFloat

instance : DecidableEq DualE := inferInstanceAs (DecidableEq (EFloat × EFloat))

/-- Embeds `Dual.IsInf` from dual.go: true if any component is infinite. -/
def DualE.IsInf (z : DualE) : Bool := EFloat.isInf z.1 || EFloat.isInf z.2

/-- Embeds `Dual.IsNaN` from dual.go: the first loop returns false if any
component is infinite, the second returns true if any component is NaN. -/
def DualE.IsNaN (z : DualE) : Bool :=
  if EFloat.isInf z.1 || EFloat.isInf z.2 then false
  else EFloat.isNaN z.1 || EFloat.isNaN z.2

/-- A store mapping locations to Dual values, used to model pointer
receivers and in-place writes. -/
def DState : Type := ℕ → Dual

/-- Overwrites the value stored at location l. -/
def DState.upd (s : DState) (l : ℕ) (v : Dual) : DState :=
  fun m => if m = l then v else s m

/-- Writes component 0 of the value at location l, as `z[0] = a` does. -/
def DState.write0 (s : DState) (l : ℕ) (a : ℚ) : DState :=
  DState.upd s l (a, (s l).2)

/-- Writes component 1 of the value at location l, as `z[1] = b` does. -/
def DState.write1 (s : DState) (l : ℕ) (b : ℚ) : DState :=
  DState.upd s l ((s l).1, b)

/-- Embeds `Dual.Mul` from dual.go as the in-place program on the store:
the receiver lz and the operands lx, ly are arbitrary (possibly equal)
locations; the operand values are copied into p and q before the two
writes through lz, exactly in source order. -/
def Dual.MulGo (s : DState) (lz lx ly : ℕ) : DState :=
  let p := s lx
  let q := s ly
  let s1 := DState.write0 s lz (p.1 * q.1)
  DState.write1 s1 lz ((p.1 * q.2) + (p.2 * q.1))

/-- A store mapping locations to Hamilton values. -/
def HState : Type := ℕ → Hamilton

/-- Overwrites the Hamilton value stored at location l. -/
def HState.upd (s : HState) (l : ℕ) (v : Hamilton) : HState :=
  fun m => if m = l then v else s m

/-- Writes component 0 of the Hamilton value at location l. -/
def HState.write0 (s : HState) (l : ℕ) (a : QtrHamilton) : HState :=
  HState.upd s l (a, (s l).2)

/-- Writes component 1 of the Hamilton value at location l. -/
def HState.write1 (s : HState) (l : ℕ) (b : QtrHamilton) : HState :=
  HState.upd s l ((s l).1, b)

/-- Embeds `Hamilton.Mul` from hamilton.go as the in-place program on the
store: the operand values are deep-copied into p and q, `z[0]` is written,
then `z[1]` is computed from the copies (with the conjugation overwriting
the local copy `q[0]`) and written, exactly in source order. -/
def Hamilton.MulGo (s : HState) (lz lx ly : ℕ) : HState :=
  let p := s lx
  let q := s ly
  let s1 := HState.write0 s lz (QtrHamilton.Mul p.1 q.1)
  let t := QtrHamilton.Mul q.2 p.1
  let qc := QtrHamilton.Conj q.1
  HState.write1 s1 lz (QtrHamilton.Add t (QtrHamilton.Mul p.2 qc))

end dual

/-- C2: Inv and Quo fail exactly when the divisor is a zero divisor, on the
Dual and Real base types; in particular division by New(0, 1) fails, and a
divisor that is not a zero divisor always yields a result. -/
theorem C2_inv_quo_fail_iff_zerodiv (x y : dual.Dual) (w v : dual.Real) :
    ((dual.Dual.Inv y).isNone = dual.Dual.IsZeroDiv y)
    ∧ ((dual.Dual.Quo x y).isNone = dual.Dual.IsZeroDiv y)
    ∧ ((dual.Real.Inv v).isNone = dual.Real.IsZeroDiv v)
    ∧ ((dual.Real.Quo w v).isNone = dual.Real.IsZeroDiv v)
    ∧ dual.Dual.Inv (dual.New 0 1) = none
    ∧ dual.Dual.Quo x (dual.New 0 1) = none := by
  have hz : dual.Dual.IsZeroDiv (dual.New 0 1) = true := by
    simp only [dual.Dual.IsZeroDiv, dual.New, dual.notEquals, sub_self, zero_sub, neg_zero]
    norm_num [dual.eps]
  refine ⟨?_, ?_, ?_, ?_, ?_, ?_⟩
  · unfold dual.Dual.Inv
    cases h : dual.Dual.IsZeroDiv y <;> simp [h]
  · unfold dual.Dual.Quo
    cases h : dual.Dual.IsZeroDiv y <;> simp [h]
  · unfold dual.Real.Inv
    cases h : dual.Real.IsZeroDiv v <;> simp [h]
  · unfold dual.Real.Quo
    cases h : dual.Real.IsZeroDiv v <;> simp [h]
  · simp [dual.Dual.Inv, hz]
  · simp [dual.Dual.Quo, hz]

/-- C3: the dual Hamilton quaternion and Ultra multiplications follow the
twisted composition rule: the pair (p0, p1) times (q0, q1) equals
(p0 q0, q1 p0 + p1 conj(q0)), with exactly that operand order and the
base-ring conjugate applied to q0. -/
theorem C3_twisted_mul_form (p q : dual.Hamilton) (u v : dual.Ultra) :
    dual.Hamilton.Mul p q
      = (dual.QtrHamilton.Mul p.1 q.1,
         dual.QtrHamilton.Add (dual.QtrHamilton.Mul q.2 p.1)
           (dual.QtrHamilton.Mul p.2 (dual.QtrHamilton.Conj q.1)))
    ∧ dual.Ultra.Mul u v
      = (dual.Super.Mul u.1 v.1,
         dual.Super.Add (dual.Super.Mul v.2 u.1)
           (dual.Super.Mul u.2 (dual.Super.Conj v.1))) :=
  ⟨rfl, rfl⟩

/-- C4 counterexample: for the dual Hamilton quaternion z with real half 0
and dual half i, Conj(z) is not (conj(a), -conj(b)) as the claim states:
the code computes (conj(a), -b). -/
theorem C4_conj_claim_false :
    dual.Hamilton.Conj (dual.QtrHamilton.zero, ⟨0, 1, 0, 0⟩)
      ≠ (dual.QtrHamilton.Conj dual.QtrHamilton.zero,
         dual.QtrHamilton.Neg (dual.QtrHamilton.Conj ⟨0, 1, 0, 0⟩)) := by
  intro h
  have h2 := congrArg (fun w : dual.Hamilton => w.2.c1) h
  simp only [dual.Hamilton.Conj, dual.QtrHamilton.Conj, dual.QtrHamilton.Neg,
    dual.QtrHamilton.Scal] at h2
  norm_num at h2

/-- C4 amended: for every dual Hamilton quaternion z = (a, b), the ring
conjugate is Conj(z) = (conj(a), -b) — the quaternion conjugate on the real
half and plain negation (without the base-ring conjugate) on the dual
half — while the dual conjugate is DualConj(z) = (a, -b). -/
theorem C4_conj_dualconj_amended (z : dual.Hamilton) :
    dual.Hamilton.Conj z
      = (⟨z.1.c0, -z.1.c1, -z.1.c2, -z.1.c3⟩,
         ⟨-z.2.c0, -z.2.c1, -z.2.c2, -z.2.c3⟩)
    ∧ dual.Hamilton.DualConj z
      = (z.1, ⟨-z.2.c0, -z.2.c1, -z.2.c2, -z.2.c3⟩) := by
  constructor <;>
    simp [dual.Hamilton.Conj, dual.Hamilton.DualConj, dual.QtrHamilton.Conj,
      dual.QtrHamilton.Neg, dual.QtrHamilton.Scal, dual.QtrHamilton.mk.injEq]

/-- C5: on the Dual, Real and Hamilton types, Quad(z) equals the
real-of-real component of Mul(z, Conj(z)) — so the shortcut computations
agree with the full multiplication — and Quad(z) is non-negative. -/
theorem C5_quad_eq_mul_conj_and_nonneg
    (z : dual.Dual) (w : dual.Real) (h : dual.Hamilton) :
    dual.Dual.Quad z = (dual.Dual.Mul z (dual.Dual.Conj z)).1
    ∧ 0 ≤ dual.Dual.Quad z
    ∧ dual.Real.Quad w = (dual.Real.Mul w (dual.Real.Conj w)).1
    ∧ 0 ≤ dual.Real.Quad w
    ∧ dual.Hamilton.Quad h = ((dual.Hamilton.Mul h (dual.Hamilton.Conj h)).1).c0
    ∧ 0 ≤ dual.Hamilton.Quad h := by
  refine ⟨rfl, mul_self_nonneg z.1, rfl, mul_self_nonneg w.1, ?_, ?_⟩
  · simp only [dual.Hamilton.Quad, dual.QtrHamilton.Quad, dual.Hamilton.Mul,
      dual.Hamilton.Conj, dual.QtrHamilton.Mul, dual.QtrHamilton.Conj]
    ring
  · have h0 := mul_self_nonneg h.1.c0
    have h1 := mul_self_nonneg h.1.c1
    have h2 := mul_self_nonneg h.1.c2
    have h3 := mul_self_nonneg h.1.c3
    simp only [dual.Hamilton.Quad, dual.QtrHamilton.Quad]
    linarith

/-- C6: a value with an infinite component is classified as Inf and not as
NaN even if another component is NaN, and IsNaN holds exactly when no
component is infinite and some component is NaN, on both the Real and the
Dual base types over the IEEE float model. -/
theorem C6_inf_nan_precedence (z w : dual.RealE) :
    ((dual.EFloat.isInf z.1 = true ∨ dual.EFloat.isInf z.2 = true) →
      dual.RealE.IsInf z = true ∧ dual.RealE.IsNaN z = false)
    ∧ (dual.RealE.IsNaN z = true ↔
        (dual.EFloat.isInf z.1 = false ∧ dual.EFloat.isInf z.2 = false
          ∧ (dual.EFloat.isNaN z.1 = true ∨ dual.EFloat.isNaN z.2 = true)))
    ∧ ((dual.EFloat.isInf w.1 = true ∨ dual.EFloat.isInf w.2 = true) →
      dual.DualE.IsInf w = true ∧ dual.DualE.IsNaN w = false)
    ∧ (dual.DualE.IsNaN w = true ↔
        (dual.EFloat.isInf w.1 = false ∧ dual.EFloat.isInf w.2 = false
          ∧ (dual.EFloat.isNaN w.1 = true ∨ dual.EFloat.isNaN w.2 = true))) := by
  obtain ⟨z1, z2⟩ := z
  obtain ⟨w1, w2⟩ := w
  refine ⟨?_, ?_, ?_, ?_⟩
  · cases z1 <;> cases z2 <;>
      simp [dual.RealE.IsInf, dual.RealE.IsNaN, dual.EFloat.isInf, dual.EFloat.isNaN]
  · cases z1 <;> cases z2 <;>
      simp [dual.RealE.IsNaN, dual.EFloat.isInf, dual.EFloat.isNaN]
  · cases w1 <;> cases w2 <;>
      simp [dual.DualE.IsInf, dual.DualE.IsNaN, dual.EFloat.isInf, dual.EFloat.isNaN]
  · cases w1 <;> cases w2 <;>
      simp [dual.DualE.IsNaN, dual.EFloat.isInf, dual.EFloat.isNaN]

/-- C6 witness: the value (+Inf, NaN) is reported as Inf and not as NaN. -/
theorem C6_witness :
    dual.RealE.IsInf (dual.EFloat.pinf, dual.EFloat.nan) = true
    ∧ dual.RealE.IsNaN (dual.EFloat.pinf, dual.EFloat.nan) = false :=
  (C6_inf_nan_precedence (dual.EFloat.pinf, dual.EFloat.nan)
    (dual.EFloat.pinf, dual.EFloat.nan)).1 (Or.inl rfl)

/-- C8: running the in-place Mul with the output location equal to any of
the operand locations (or not) leaves at the output location exactly the
product of the original operand values, i.e. Mul of defensive copies, on
both the Dual and the Hamilton types. -/
theorem C8_mul_alias_safe (s : dual.DState) (t : dual.HState) (lz lx ly : ℕ) :
    (dual.Dual.MulGo s lz lx ly) lz = dual.Dual.Mul (s lx) (s ly)
    ∧ (dual.Hamilton.MulGo t lz lx ly) lz = dual.Hamilton.Mul (t lx) (t ly) := by
  constructor
  · simp [dual.Dual.MulGo, dual.DState.write0, dual.DState.write1,
      dual.DState.upd, dual.Dual.Mul]
  · simp [dual.Hamilton.MulGo, dual.HState.write0, dual.HState.write1,
      dual.HState.upd, dual.Hamilton.Mul]

/-- C9: the all-NaN Real value is tolerance-equal to every Real value,
because the comparator uses strict comparisons that are false on NaN. -/
theorem C9_nan_equals_everything (y : dual.RealE) :
    dual.RealE.Equals dual.RealNaN y = true := by
  obtain ⟨y1, y2⟩ := y
  cases y1 <;> cases y2 <;> rfl

/-- C10: the Real and Dual revisions of the base two-component dual type
compute identical results: Mul agrees with Mul and Inv agrees with Inv as
functions of the raw components. -/
theorem C10_real_dual_agree (x y : dual.Real) :
    dual.Real.Mul x y = dual.Dual.Mul x y
    ∧ dual.Real.Inv x = dual.Dual.Inv x := by
  constructor
  · rfl
  · simp only [dual.Real.Inv, dual.Dual.Inv, dual.Real.IsZeroDiv,
      dual.Dual.IsZeroDiv, dual.Real.Scal, dual.Dual.Scal, dual.Real.Conj,
      dual.Dual.Conj, dual.Real.Quad, dual.Dual.Quad, dual.Dual.Mul]
    split
    · rfl
    · refine congrArg some (Prod.ext ?_ ?_) <;> ring

/-- C1: evaluating the zero-divisor tests at concrete inputs shows the
composite types answer with the negation inverted: the Hamilton and
Perplex units (real part 1, not tolerance-zero) are reported as zero
divisors while genuinely nilpotent values (real part 0) are not; the Real
version does satisfy the claimed characterization. -/
theorem C1_iszerodiv_inverted :
    dual.Hamilton.IsZeroDiv (⟨1, 0, 0, 0⟩, dual.QtrHamilton.zero) = true
    ∧ dual.Hamilton.IsZeroDiv (dual.QtrHamilton.zero, ⟨1, 0, 0, 0⟩) = false
    ∧ dual.Perplex.IsZeroDiv ((1, 0), (0, 0)) = true
    ∧ dual.Perplex.IsZeroDiv ((0, 0), (0, 1)) = false
    ∧ (∀ a b : ℚ, dual.Real.IsZeroDiv (a, b) = true ↔ |a| ≤ dual.eps) := by
  refine ⟨?_, ?_, ?_, ?_, ?_⟩
  · simp only [dual.Hamilton.IsZeroDiv, dual.QtrHamilton.Equals,
      dual.QtrHamilton.zero, dual.notEquals]
    norm_num [dual.eps]
  · simp only [dual.Hamilton.IsZeroDiv, dual.QtrHamilton.Equals,
      dual.QtrHamilton.zero, dual.notEquals]
    norm_num [dual.eps]
  · simp only [dual.Perplex.IsZeroDiv, dual.SplitComplex.Equals,
      dual.SplitComplex.zero, dual.notEquals]
    norm_num [dual.eps]
  · simp only [dual.Perplex.IsZeroDiv, dual.SplitComplex.Equals,
      dual.SplitComplex.zero, dual.notEquals]
    norm_num [dual.eps]
  · intro a b
    simp only [dual.Real.IsZeroDiv, dual.notEquals, sub_zero, zero_sub,
      Bool.not_eq_true', Bool.or_eq_false_iff, decide_eq_false_iff_not, not_lt]
    rw [abs_le]
    constructor
    · rintro ⟨h1, h2⟩
      exact ⟨by linarith, h1⟩
    · rintro ⟨h1, h2⟩
      exact ⟨h2, by linarith⟩
